import Mathlib

/-!
# Verification of the VK Teams export pipeline

A shallow embedding, in Lean 4, of the core of the `vk_teams_dump`
repository (`telegram_bot/vkteams_client.py`, `telegram_bot/bot.py`,
`telegram_bot/config.py`), together with theorems settling the
specification claims C1–C10 about it.

Conventions of the embedding:
* Python strings are embedded as `List Char` (`Str`); Python's `str.split`
  on a one-character separator is `splitOnChar`, and the truthiness test
  `if s:` on a string is emptiness of the list.
* Network calls are parameters ("server oracles"): a function from the
  request data the code sends to the structured response the remote end
  returns.  Python dict lookups with defaults (`d.get(k, v)`) become
  `Option` fields with `Option.getD`.
* Fallible code returns `Except`; an uncaught Python exception is the
  `.error` constructor.
* The `asyncio` download pool of `do_actual_export` is modelled on the
  schedule where the created tasks run their critical sections one after
  another in creation order (one admissible interleaving of the
  semaphore-bounded pool).
-/

namespace VKDump

/-- Python strings, embedded as lists of characters. -/
abbrev Str := List Char

/-! ## `str.split` on a single-character separator (Python semantics)

`"a:b".split(":") = ["a", "b"]`, `"".split(":") = [""]`,
`":b".split(":") = ["", "b"]`, never the empty list of parts. -/

/-- Python `s.split(c)` for a one-character separator `c`. -/
def splitOnChar (c : Char) : Str → List Str
  | [] => [[]]
  | x :: xs =>
    match splitOnChar c xs with
    | [] => [[]]
    | p :: ps => if x = c then [] :: p :: ps else (x :: p) :: ps

theorem splitOnChar_ne_nil (c : Char) (s : Str) : splitOnChar c s ≠ [] := by
  induction s with
  | nil => simp [splitOnChar]
  | cons x xs ih =>
    rcases h : splitOnChar c xs with _ | ⟨p, ps⟩
    · exact absurd h ih
    · simp only [splitOnChar, h]
      split <;> simp

theorem splitOnChar_of_not_mem {c : Char} {s : Str} (h : c ∉ s) :
    splitOnChar c s = [s] := by
  induction s with
  | nil => rfl
  | cons x xs ih =>
    simp only [List.mem_cons, not_or] at h
    simp only [splitOnChar, ih h.2]
    split
    · exact absurd ‹x = c›.symm h.1
    · rfl

/-! ### Suffix after the last occurrence of a character -/

/-- Spec-side reading of "the substring after the last `':'`": reverse the
string, take characters while they differ from the separator, reverse back. -/
def suffixAfterLast (c : Char) (s : Str) : Str :=
  (s.reverse.takeWhile (· != c)).reverse

theorem takeWhile_bne_append_of_mem {c : Char} {l l' : Str} (h : c ∈ l) :
    (l ++ l').takeWhile (· != c) = l.takeWhile (· != c) := by
  induction l with
  | nil => cases h
  | cons a t ih =>
    by_cases hac : a = c
    · subst hac
      simp [List.takeWhile_cons]
    · have hb : (a != c) = true := bne_iff_ne.mpr hac
      rcases List.mem_cons.mp h with h1 | h1
      · exact absurd h1.symm hac
      · simp [List.takeWhile_cons, hb, ih h1]

theorem takeWhile_bne_append_of_not_mem {c : Char} {l l' : Str} (h : c ∉ l) :
    (l ++ l').takeWhile (· != c) = l ++ l'.takeWhile (· != c) := by
  induction l with
  | nil => simp
  | cons a t ih =>
    simp only [List.mem_cons, not_or] at h
    have hb : (a != c) = true := bne_iff_ne.mpr (fun hh => h.1 hh.symm)
    simp [List.takeWhile_cons, hb, ih h.2]

theorem takeWhile_bne_of_not_mem {c : Char} {l : Str} (h : c ∉ l) :
    l.takeWhile (· != c) = l := by
  simpa using @takeWhile_bne_append_of_not_mem c l [] h

/-- When the separator occurs in the string, `splitOnChar` produces at
least two parts. -/
theorem two_le_length_splitOnChar {c : Char} {s : Str} (h : c ∈ s) :
    2 ≤ (splitOnChar c s).length := by
  induction s with
  | nil => cases h
  | cons x xs ih =>
    rcases hsp : splitOnChar c xs with _ | ⟨p, ps⟩
    · exact absurd hsp (splitOnChar_ne_nil c xs)
    · simp only [splitOnChar, hsp]
      by_cases hxc : x = c
      · simp [hxc]
      · rcases List.mem_cons.mp h with h1 | h1
        · exact absurd h1.symm hxc
        · have h2 := ih h1
          rw [hsp] at h2
          simp only [if_neg hxc]
          simpa using h2

/-- The last part produced by `splitOnChar` is exactly the suffix after the
last occurrence of the separator (the whole string when the separator does
not occur). -/
theorem getLastD_splitOnChar (c : Char) (s : Str) :
    (splitOnChar c s).getLastD [] = suffixAfterLast c s := by
  induction s with
  | nil => simp [splitOnChar, suffixAfterLast]
  | cons x xs ih =>
    rcases hsp : splitOnChar c xs with _ | ⟨p, ps⟩
    · exact absurd hsp (splitOnChar_ne_nil c xs)
    · by_cases hmem : c ∈ xs
      · have hs : suffixAfterLast c (x :: xs) = suffixAfterLast c xs := by
          simp only [suffixAfterLast, List.reverse_cons]
          rw [takeWhile_bne_append_of_mem (by simpa using hmem)]
        simp only [splitOnChar, hsp]
        rw [hs, ← ih, hsp]
        by_cases hxc : x = c
        · rw [if_pos hxc, List.getLastD_cons]
        · rw [if_neg hxc]
          rcases ps with _ | ⟨q, qs⟩
          · -- a single part although the separator occurs: impossible
            have h2 := two_le_length_splitOnChar hmem
            rw [hsp] at h2
            simp at h2
          · simp [List.getLastD_cons]
      · -- separator not in xs: the split of `xs` is the single part `xs`
        have hxs1 : splitOnChar c xs = [xs] := splitOnChar_of_not_mem hmem
        rw [hxs1] at hsp
        obtain ⟨hp, hps⟩ : xs = p ∧ ([] : List Str) = ps := by
          injection hsp with h1 h2
          exact ⟨h1, h2⟩
        subst hp
        subst hps
        simp only [splitOnChar, hxs1]
        by_cases hxc : x = c
        · subst hxc
          simp only [if_pos rfl, List.getLastD_cons, List.getLastD_nil]
          simp only [suffixAfterLast, List.reverse_cons]
          rw [takeWhile_bne_append_of_not_mem (by simpa using hmem)]
          simp [List.takeWhile_cons,
            takeWhile_bne_of_not_mem (by simpa using hmem)]
        · have hb : (x != c) = true := bne_iff_ne.mpr hxc
          simp only [if_neg hxc, List.getLastD_cons, List.getLastD_nil]
          simp only [suffixAfterLast, List.reverse_cons]
          rw [takeWhile_bne_append_of_not_mem (by simpa using hmem)]
          simp [List.takeWhile_cons, hb,
            takeWhile_bne_of_not_mem (by simpa using hmem)]

/-! ## Sessions (`vkteams_client.py`, `VKTeamsSession`,
`VKTeamsAuth.create_session_from_aimsid`) -/

/-- `VKTeamsSession` dataclass: `aimsid`, `email`, `fetch_base_url` (defaults
to the empty string). -/
structure VKTeamsSession where
  aimsid : Str
  email : Str
  fetch_base_url : Str := []
  deriving DecidableEq, Repr

/-- `VKTeamsAuth.create_session_from_aimsid`:
`email = aimsid.split(":")[-1] if ":" in aimsid else ""`. -/
def create_session_from_aimsid (aimsid : Str) : VKTeamsSession :=
  let email := if ':' ∈ aimsid then (splitOnChar ':' aimsid).getLastD [] else []
  { aimsid := aimsid, email := email }

/-- C9: `create_session_from_aimsid` keeps the `aimsid` unchanged and sets
`email` to the substring after the last `':'` when one occurs, and to the
empty string otherwise. -/
theorem create_session_from_aimsid_correct (a : Str) :
    (create_session_from_aimsid a).aimsid = a ∧
    (create_session_from_aimsid a).email =
      (if ':' ∈ a then suffixAfterLast ':' a else []) := by
  refine ⟨rfl, ?_⟩
  simp only [create_session_from_aimsid]
  split
  · exact getLastD_splitOnChar ':' a
  · rfl

/-! ## History pagination (`vkteams_client.py`, `VKTeamsClient.get_history`
and `VKTeamsClient.export_chat`; `config.py`) -/

/-- `config.MESSAGES_PER_REQUEST = 900`. -/
def MESSAGES_PER_REQUEST : Nat := 900

/-- One message as `export_chat` reads it: `msg.get("time", 0)` and
`msg.get("chat", {}).get("name", sn)`; `body` stands for the remaining
payload, which `export_chat` never inspects. -/
structure Message where
  time : Option Int := none
  chatName : Option Str := none
  body : Nat := 0
  deriving DecidableEq, Repr

/-- The `results` record that `getHistory` answers with: `messages`,
`pinned` (absent key read as `[]`) and the optional `olderMsgId` cursor. -/
structure HistoryResult where
  messages : List Message := []
  pinned : List Message := []
  olderMsgId : Option Str := none
  deriving DecidableEq, Repr

/-- The history endpoint, as an oracle from the request parameters the
client sends (`sn`, `fromMsgId`, `count`) to the structured response. -/
abbrev HistoryServer := Str → Str → Int → HistoryResult

/-- Python `x or d` on an optional string (`None` and `""` are falsy). -/
def pyOrStr (o : Option Str) (d : Str) : Str :=
  match o with
  | none => d
  | some s => if s.isEmpty then d else s

/-- Truthiness of `results.get("olderMsgId")`: present and non-empty. -/
def cursorTruthy (o : Option Str) : Bool :=
  match o with
  | none => false
  | some s => !s.isEmpty

/-- `VKTeamsClient.get_history`: sends `fromMsgId = from_msg_id or "-1"`
and `count` (the caller `export_chat` always leaves `count = -50`). -/
def get_history (server : HistoryServer) (sn : Str) (from_msg_id : Option Str)
    (count : Int := -50) : HistoryResult :=
  server sn (pyOrStr from_msg_id ("-1".toList)) count

/-- The local variables of `export_chat`'s `while` loop. -/
structure ExportState where
  all_messages : List Message := []
  pinned_messages : List Message := []
  from_msg_id : Option Str := none
  chat_info : Option Str := none
  request_count : Nat := 0
  deriving DecidableEq, Repr

/-- Outcome of one iteration of the loop body: `break` out of the loop with
the final state, or go round again. -/
inductive StepOut where
  | stop (s : ExportState)
  | next (s : ExportState)
  deriving DecidableEq, Repr

/-- One iteration of the body of `export_chat`'s `while` loop (after the
`len(all_messages) < max_messages` guard has passed): request a page,
capture `pinned` and the chat name on the first request, `break` on an
empty page, extend `all_messages`, `break` on a falsy `olderMsgId`, advance
the cursor, and `break` when the page is shorter than
`abs(config.MESSAGES_PER_REQUEST)`. -/
def export_step (server : HistoryServer) (sn : Str) (s : ExportState) : StepOut :=
  let s1 := { s with request_count := s.request_count + 1 }
  let results := get_history server sn s.from_msg_id
  let s2 := if s1.request_count = 1 then
      { s1 with
        pinned_messages := results.pinned,
        chat_info := match results.messages with
          | [] => s1.chat_info
          | m :: _ => some (m.chatName.getD sn) }
    else s1
  match results.messages with
  | [] => .stop s2
  | _ :: _ =>
    let s3 := { s2 with all_messages := s2.all_messages ++ results.messages }
    match results.olderMsgId with
    | none => .stop s3
    | some older =>
      if older.isEmpty then .stop s3
      else
        let s4 := { s3 with from_msg_id := some older }
        if results.messages.length < MESSAGES_PER_REQUEST then .stop s4
        else .next s4

/-- `export_chat`'s `while len(all_messages) < max_messages` loop.  The
`fuel` argument only bounds the recursion; `export_chat` passes
`max_messages + 1`, which `export_loop_fuel_irrelevant` shows is never
exhausted (each `next` step strictly grows `all_messages`). -/
def export_loop (server : HistoryServer) (sn : Str) (max_messages : Nat) :
    Nat → ExportState → ExportState
  | 0, s => s
  | fuel + 1, s =>
    if s.all_messages.length < max_messages then
      match export_step server sn s with
      | .stop s' => s'
      | .next s' => export_loop server sn max_messages fuel s'
    else s

/-- Ordering of messages by the sort key of
`all_messages.sort(key=lambda m: m.get("time", 0))`. -/
def msgLe (a b : Message) : Prop := a.time.getD 0 ≤ b.time.getD 0

instance : DecidableRel msgLe := fun a b =>
  inferInstanceAs (Decidable (a.time.getD 0 ≤ b.time.getD 0))

instance : IsTotal Message msgLe := ⟨fun _ _ => Int.le_total _ _⟩

instance : IsTrans Message msgLe := ⟨fun _ _ _ h1 h2 => le_trans h1 h2⟩

/-- The dict returned by `export_chat`. -/
structure ExportResult where
  chat_sn : Str
  chat_name : Str
  total_messages : Nat
  pinned_messages : List Message
  messages : List Message
  deriving DecidableEq, Repr

/-- `VKTeamsClient.export_chat`: run the pagination loop from the empty
state, then sort the collected messages (Python's stable `list.sort` with
key `m.get("time", 0)`; a stable sort by a key is `insertionSort` of the
key order) and build the result dict. -/
def export_chat (server : HistoryServer) (sn : Str)
    (max_messages : Nat := 10000) : ExportResult :=
  let s := export_loop server sn max_messages (max_messages + 1) {}
  let sorted := List.insertionSort msgLe s.all_messages
  { chat_sn := sn,
    chat_name := s.chat_info.getD sn,
    total_messages := sorted.length,
    pinned_messages := s.pinned_messages,
    messages := sorted }

/-- A `next` outcome strictly grows `all_messages` (the step appended a
non-empty page). -/
theorem export_step_next_length {server : HistoryServer} {sn : Str}
    {s s' : ExportState} (h : export_step server sn s = StepOut.next s') :
    s.all_messages.length < s'.all_messages.length := by
  unfold export_step at h
  rcases hm : (get_history server sn s.from_msg_id).messages with _ | ⟨m, ms⟩ <;>
    simp only [hm] at h
  · cases h
  · rcases ho : (get_history server sn s.from_msg_id).olderMsgId with _ | older <;>
      simp only [ho] at h
    · cases h
    · split at h
      · cases h
      · split at h
        · cases h
        · cases h
          split <;> simp

/-- The fuel argument of `export_loop` is irrelevant as soon as it exceeds
`max_messages - all_messages.length`: the loop never exhausts the fuel
`export_chat` gives it, so every exit is one of the `break`s or the loop
guard. -/
theorem export_loop_fuel_irrelevant (server : HistoryServer) (sn : Str)
    (max_messages : Nat) :
    ∀ f₁ f₂ s, max_messages - s.all_messages.length < f₁ →
      max_messages - s.all_messages.length < f₂ →
      export_loop server sn max_messages f₁ s =
        export_loop server sn max_messages f₂ s := by
  intro f₁
  induction f₁ with
  | zero => omega
  | succ n ih =>
    intro f₂ s h₁ h₂
    rcases f₂ with _ | m
    · omega
    · simp only [export_loop]
      by_cases hg : s.all_messages.length < max_messages
      · simp only [if_pos hg]
        rcases hstep : export_step server sn s with s' | s'
        · rfl
        · have hlen := export_step_next_length hstep
          exact ih m s' (by omega) (by omega)
      · simp only [if_neg hg]

/-- C1: for every history endpoint behaviour, chat and message budget, the
message list `export_chat` returns is sorted non-decreasing by the `time`
field (as read by the sort key, absent `time` counting as `0`), regardless
of the order in which history pages arrive. -/
theorem export_chat_messages_sorted (server : HistoryServer) (sn : Str)
    (max_messages : Nat) :
    List.Sorted msgLe (export_chat server sn max_messages).messages :=
  List.sorted_insertionSort msgLe _

/-- One unfolding of the loop: a `break` returns the collected state. -/
theorem export_loop_stop {server : HistoryServer} {sn : Str}
    {max_messages : Nat} (fuel : Nat) {s s' : ExportState}
    (hg : s.all_messages.length < max_messages)
    (h : export_step server sn s = StepOut.stop s') :
    export_loop server sn max_messages (fuel + 1) s = s' := by
  simp [export_loop, if_pos hg, h]

/-- One unfolding of the loop: a `next` outcome loops again. -/
theorem export_loop_next {server : HistoryServer} {sn : Str}
    {max_messages : Nat} (fuel : Nat) {s s' : ExportState}
    (hg : s.all_messages.length < max_messages)
    (h : export_step server sn s = StepOut.next s') :
    export_loop server sn max_messages (fuel + 1) s =
      export_loop server sn max_messages fuel s' := by
  simp [export_loop, if_pos hg, h]

/-- One unfolding of the loop: a failed guard returns the collected state. -/
theorem export_loop_exit {server : HistoryServer} {sn : Str}
    {max_messages : Nat} (fuel : Nat) {s : ExportState}
    (hg : max_messages ≤ s.all_messages.length) :
    export_loop server sn max_messages (fuel + 1) s = s := by
  simp [export_loop, if_neg (Nat.not_lt.mpr hg)]

/-- C2 (amended): the walk requests a further page exactly when the
response carried a truthy `olderMsgId` cursor AND the page length reached
`abs(config.MESSAGES_PER_REQUEST) = 900` (not the `|count| = 50` actually
requested from the endpoint) AND the collected total is still below
`max_messages`; a `break` (short or empty page, absent cursor) and the loop
guard both end the walk by returning the collected state as an ordinary
result. -/
theorem export_chat_pagination_behavior :
    (∀ (server : HistoryServer) (sn : Str) (s : ExportState),
      (∃ s', export_step server sn s = StepOut.next s') ↔
        (cursorTruthy (get_history server sn s.from_msg_id).olderMsgId = true ∧
         MESSAGES_PER_REQUEST ≤ (get_history server sn s.from_msg_id).messages.length))
  ∧ (∀ (server : HistoryServer) (sn : Str) (max_messages fuel : Nat)
      (s s' : ExportState), s.all_messages.length < max_messages →
        export_step server sn s = StepOut.stop s' →
        export_loop server sn max_messages (fuel + 1) s = s')
  ∧ (∀ (server : HistoryServer) (sn : Str) (max_messages fuel : Nat)
      (s : ExportState), max_messages ≤ s.all_messages.length →
        export_loop server sn max_messages (fuel + 1) s = s) := by
  refine ⟨?_, ?_, ?_⟩
  · intro server sn s
    constructor
    · rintro ⟨s', hs'⟩
      unfold export_step at hs'
      rcases hm : (get_history server sn s.from_msg_id).messages with _ | ⟨m, ms⟩ <;>
        simp only [hm] at hs'
      · cases hs'
      · rcases ho : (get_history server sn s.from_msg_id).olderMsgId with _ | older <;>
          simp only [ho] at hs'
        · cases hs'
        · split at hs'
          · cases hs'
          · split at hs'
            · cases hs'
            · rename_i hempty hshort
              exact ⟨by simp [cursorTruthy, eq_false_of_ne_true hempty],
                Nat.not_lt.mp hshort⟩
    · rintro ⟨hc, hlen⟩
      unfold export_step
      rcases hm : (get_history server sn s.from_msg_id).messages with _ | ⟨m, ms⟩
      · rw [hm] at hlen
        simp [MESSAGES_PER_REQUEST] at hlen
      · simp only [hm]
        rcases ho : (get_history server sn s.from_msg_id).olderMsgId with _ | older
        · rw [ho] at hc
          simp [cursorTruthy] at hc
        · rw [ho] at hc
          simp only [cursorTruthy, Bool.not_eq_true'] at hc
          rw [hm] at hlen
          simp only [hc, Bool.false_eq_true, if_false, if_neg (Nat.not_lt.mpr hlen)]
          exact ⟨_, rfl⟩
  · intro server sn max_messages fuel s s' hg hstep
    exact export_loop_stop fuel hg hstep
  · intro server sn max_messages fuel s hg
    exact export_loop_exit fuel hg

/-- A history endpoint that always answers with a full page of exactly the
`|count| = 50` messages the client asked for, plus an `olderMsgId` cursor. -/
def serverFull50 : HistoryServer := fun _ _ _ =>
  { messages := List.replicate 50 { time := some 0 },
    pinned := [],
    olderMsgId := some ("7".toList) }

/-- A history endpoint that always answers with a 900-message page
(`MESSAGES_PER_REQUEST` many) plus an `olderMsgId` cursor. -/
def serverFull900 : HistoryServer := fun _ _ _ =>
  { messages := List.replicate 900 { time := some 0 },
    pinned := [],
    olderMsgId := some ("7".toList) }

/-- The state in which the walk against `serverFull50` stops after its
first (and only) request. -/
def cx50State : ExportState :=
  { all_messages := List.replicate 50 { time := some 0 },
    pinned_messages := [],
    from_msg_id := some ("7".toList),
    chat_info := some ("c1".toList),
    request_count := 1 }

/-- The state after the first request of the walk against `serverFull900`. -/
def cx900State : ExportState :=
  { all_messages := List.replicate 900 { time := some 0 },
    pinned_messages := [],
    from_msg_id := some ("7".toList),
    chat_info := some ("c1".toList),
    request_count := 1 }

set_option maxRecDepth 8000 in
/-- C2 counterexample: (i) a response holding a cursor and a page of
exactly the 50 messages the request asked for (`count = -50`) ends the
walk after a single request — the code compares the page length against
`MESSAGES_PER_REQUEST = 900`, not against the size it requested; (ii) even
a response with a cursor and a full 900-message page does not produce a
further request once `max_messages` many messages are collected.  Both
contradict "continues exactly while a cursor is present and the page
reached the requested page size". -/
theorem export_chat_continuation_counterexample :
    ((export_loop serverFull50 ("c1".toList) 10000 (10000 + 1) {}).request_count = 1
      ∧ cursorTruthy (serverFull50 ("c1".toList) ("-1".toList) (-50)).olderMsgId = true
      ∧ (serverFull50 ("c1".toList) ("-1".toList) (-50)).messages.length = 50)
  ∧ ((export_loop serverFull900 ("c1".toList) 1 (1 + 1) {}).request_count = 1
      ∧ cursorTruthy (serverFull900 ("c1".toList) ("-1".toList) (-50)).olderMsgId = true
      ∧ (serverFull900 ("c1".toList) ("-1".toList) (-50)).messages.length = 900) := by
  have h50 : export_step serverFull50 ("c1".toList) {} = StepOut.stop cx50State := by
    decide
  have h900 : export_step serverFull900 ("c1".toList) {} = StepOut.next cx900State := by
    decide
  refine ⟨⟨?_, by decide, by simp [serverFull50]⟩, ⟨?_, by decide, by simp [serverFull900]⟩⟩
  · rw [export_loop_stop 10000 (by decide) h50]
    rfl
  · rw [export_loop_next 1 (by decide) h900,
      export_loop_exit 0 (by simp [cx900State] : 1 ≤ cx900State.all_messages.length)]
    rfl

/-- Witness for `export_chat_pagination_behavior`: instantiating the
`break`-exit clause and the guard-exit clause at concrete inputs. -/
theorem export_chat_pagination_behavior_witness :
    export_loop serverFull50 ("c1".toList) 0 1
      { all_messages := [{ time := some 3 }] } =
      { all_messages := [{ time := some 3 }] } :=
  export_chat_pagination_behavior.2.2 serverFull50 ("c1".toList) 0 0
    { all_messages := [{ time := some 3 }] } (by simp)

/-! ## Archive delivery (`bot.py`, `send_document_with_retry` and the ZIP
size gate of `do_actual_export`) -/

/-- What one `bot.send_document` attempt does: succeed, fail with a
transient transport error (`asyncio.TimeoutError` or
`TelegramNetworkError`), or fail with any other exception. -/
inductive SendOutcome where
  | success
  | transientErr
  | fatalErr
  deriving DecidableEq, Repr

/-- Result of `send_document_with_retry`: the document was delivered; the
last transient error was re-raised after the loop; a non-retryable
exception was re-raised at once; or the `max_retries = 0` fallback raise.
Each constructor carries the number of attempts made and the back-off
sleeps performed between attempts. -/
inductive SendResult where
  | delivered (attempts : Nat) (sleeps : List Nat)
  | transientRaise (attempts : Nat) (sleeps : List Nat)
  | fatalRaise (attempts : Nat) (sleeps : List Nat)
  | noAttemptRaise
  deriving DecidableEq, Repr

/-- Attempts made (`attempt + 1` of the attempt the loop ended on). -/
def SendResult.attempts : SendResult → Nat
  | .delivered n _ => n
  | .transientRaise n _ => n
  | .fatalRaise n _ => n
  | .noAttemptRaise => 0

/-- The back-off sleeps performed, in order. -/
def SendResult.sleeps : SendResult → List Nat
  | .delivered _ l => l
  | .transientRaise _ l => l
  | .fatalRaise _ l => l
  | .noAttemptRaise => []

/-- The body of `send_document_with_retry`'s `for attempt in
range(max_retries)` loop: `remaining = max_retries - attempt` attempts are
left.  On success return; on `(asyncio.TimeoutError, TelegramNetworkError)`
sleep `2 ** (attempt + 1)` seconds and retry while `attempt <
max_retries - 1`; on any other exception re-raise immediately; after the
loop re-raise the last error. -/
def send_go (outcome : Nat → SendOutcome) (attempt : Nat) (sleeps : List Nat) :
    Nat → SendResult
  | 0 => .noAttemptRaise
  | remaining + 1 =>
    match outcome attempt with
    | .success => .delivered (attempt + 1) sleeps
    | .fatalErr => .fatalRaise (attempt + 1) sleeps
    | .transientErr =>
      if remaining = 0 then .transientRaise (attempt + 1) sleeps
      else send_go outcome (attempt + 1) (sleeps ++ [2 ^ (attempt + 1)]) remaining

/-- `send_document_with_retry` with its attempt outcomes as an oracle. -/
def send_document_with_retry (outcome : Nat → SendOutcome)
    (max_retries : Nat := 4) : SendResult :=
  send_go outcome 0 [] max_retries

/-- What `do_actual_export` does with the assembled ZIP (bot.py:1631-1651):
report it as over the 50 MB Telegram ceiling, or hand it to
`send_document_with_retry` with `max_retries = 4`.  `zip_size_mb >
50` with `zip_size_mb = size_bytes / 2**20` (a division by a power of two,
exact in double precision for any real file size) holds iff `size_bytes >
50 * 2**20`. -/
inductive DeliveryAction where
  | tooLargeReported
  | attempted (r : SendResult)
  deriving DecidableEq, Repr

/-- Number of `send_document` calls a `DeliveryAction` performed. -/
def DeliveryAction.sendAttempts : DeliveryAction → Nat
  | .tooLargeReported => 0
  | .attempted r => r.attempts

/-- The delivery tail of `do_actual_export`. -/
def deliver_zip (zip_bytes : Nat) (outcome : Nat → SendOutcome) : DeliveryAction :=
  if 50 * 1024 * 1024 < zip_bytes then .tooLargeReported
  else .attempted (send_document_with_retry outcome 4)

/-- Full characterisation of the retry loop from a start point whose
earlier attempts were all transient failures with the matching sleeps
logged. -/
theorem send_go_spec (outcome : Nat → SendOutcome) :
    ∀ (remaining attempt : Nat),
      (∀ j, j < attempt → outcome j = SendOutcome.transientErr) →
      (send_go outcome attempt
          ((List.range attempt).map (fun i => 2 ^ (i + 1))) remaining).attempts
          ≤ attempt + remaining ∧
      (∀ j, j + 1 < (send_go outcome attempt
          ((List.range attempt).map (fun i => 2 ^ (i + 1))) remaining).attempts →
        outcome j = SendOutcome.transientErr) ∧
      (send_go outcome attempt
          ((List.range attempt).map (fun i => 2 ^ (i + 1))) remaining).sleeps =
        (List.range ((send_go outcome attempt
          ((List.range attempt).map (fun i => 2 ^ (i + 1))) remaining).attempts - 1)).map
            (fun i => 2 ^ (i + 1)) ∧
      (∀ j, j < (send_go outcome attempt
          ((List.range attempt).map (fun i => 2 ^ (i + 1))) remaining).attempts →
        outcome j = SendOutcome.fatalErr →
        send_go outcome attempt
          ((List.range attempt).map (fun i => 2 ^ (i + 1))) remaining =
          SendResult.fatalRaise (j + 1)
            ((List.range j).map (fun i => 2 ^ (i + 1)))) := by
  intro remaining
  induction remaining with
  | zero =>
    intro attempt _
    refine ⟨by simp [send_go, SendResult.attempts], ?_, ?_, ?_⟩
    · intro j hj
      simp [send_go, SendResult.attempts] at hj
    · simp [send_go, SendResult.attempts, SendResult.sleeps]
    · intro j hj
      simp [send_go, SendResult.attempts] at hj
  | succ n ih =>
    intro attempt hpre
    rcases hout : outcome attempt with _ | _ | _
    · -- success on this attempt
      simp only [send_go, hout]
      refine ⟨by simp [SendResult.attempts], ?_, ?_, ?_⟩
      · intro j hj
        simp only [SendResult.attempts] at hj
        exact hpre j (by omega)
      · simp [SendResult.attempts, SendResult.sleeps]
      · intro j hj hfat
        simp only [SendResult.attempts] at hj
        rcases Nat.lt_succ_iff_lt_or_eq.mp hj with hj' | hj'
        · exact absurd (hpre j hj') (by simp [hfat])
        · subst hj'
          exact absurd hout (by simp [hfat])
    · -- transient failure on this attempt
      simp only [send_go, hout]
      by_cases hrem : n = 0
      · subst hrem
        rw [if_pos rfl]
        refine ⟨by simp [SendResult.attempts], ?_, ?_, ?_⟩
        · intro j hj
          simp only [SendResult.attempts] at hj
          exact hpre j (by omega)
        · simp [SendResult.attempts, SendResult.sleeps]
        · intro j hj hfat
          simp only [SendResult.attempts] at hj
          rcases Nat.lt_succ_iff_lt_or_eq.mp hj with hj' | hj'
          · exact absurd (hpre j hj') (by simp [hfat])
          · subst hj'
            exact absurd hout (by simp [hfat])
      · rw [if_neg hrem]
        have hlog : (List.range attempt).map (fun i => 2 ^ (i + 1)) ++
            [2 ^ (attempt + 1)] =
            (List.range (attempt + 1)).map (fun i => 2 ^ (i + 1)) := by
          rw [List.range_succ, List.map_append]
          rfl
        rw [hlog]
        have hpre' : ∀ j, j < attempt + 1 → outcome j = SendOutcome.transientErr := by
          intro j hj
          rcases Nat.lt_succ_iff_lt_or_eq.mp hj with hj' | hj'
          · exact hpre j hj'
          · subst hj'
            exact hout
        have := ih (attempt + 1) hpre'
        exact ⟨by omega, this.2.1, this.2.2.1, this.2.2.2⟩
    · -- non-retryable failure on this attempt
      simp only [send_go, hout]
      refine ⟨by simp [SendResult.attempts], ?_, ?_, ?_⟩
      · intro j hj
        simp only [SendResult.attempts] at hj
        exact hpre j (by omega)
      · simp [SendResult.attempts, SendResult.sleeps]
      · intro j hj hfat
        simp only [SendResult.attempts] at hj
        rcases Nat.lt_succ_iff_lt_or_eq.mp hj with hj' | hj'
        · exact absurd (hpre j hj') (by simp [hfat])
        · subst hj'
          simp [SendResult.sleeps]

/-- C5: an archive over the 50 MB ceiling is reported as too large and
delivery is never attempted (zero send calls, hence never retried);
otherwise delivery makes at most 4 attempts, every attempt before the last
followed a transient transport failure, the sleeps between attempts are
`2, 4, 8, …` seconds (doubling each attempt), and a non-transient error on
attempt `j` stops the loop immediately (the result is the re-raise after
exactly `j + 1` attempts). -/
theorem delivery_size_gate_and_retry (zip_bytes : Nat)
    (outcome : Nat → SendOutcome) :
    (50 * 1024 * 1024 < zip_bytes →
      deliver_zip zip_bytes outcome = DeliveryAction.tooLargeReported ∧
      (deliver_zip zip_bytes outcome).sendAttempts = 0)
  ∧ (zip_bytes ≤ 50 * 1024 * 1024 →
      deliver_zip zip_bytes outcome =
        DeliveryAction.attempted (send_document_with_retry outcome 4) ∧
      (send_document_with_retry outcome 4).attempts ≤ 4 ∧
      (∀ j, j + 1 < (send_document_with_retry outcome 4).attempts →
        outcome j = SendOutcome.transientErr) ∧
      (send_document_with_retry outcome 4).sleeps =
        (List.range ((send_document_with_retry outcome 4).attempts - 1)).map
          (fun i => 2 ^ (i + 1)) ∧
      (∀ j, j < (send_document_with_retry outcome 4).attempts →
        outcome j = SendOutcome.fatalErr →
        send_document_with_retry outcome 4 =
          SendResult.fatalRaise (j + 1)
            ((List.range j).map (fun i => 2 ^ (i + 1))))) := by
  have hspec := send_go_spec outcome 4 0 (by omega)
  simp only [List.range_zero, List.map_nil] at hspec
  constructor
  · intro h
    have : deliver_zip zip_bytes outcome = DeliveryAction.tooLargeReported := by
      simp [deliver_zip, if_pos h]
    exact ⟨this, by simp [this, DeliveryAction.sendAttempts]⟩
  · intro h
    have hz : deliver_zip zip_bytes outcome =
        DeliveryAction.attempted (send_document_with_retry outcome 4) := by
      simp [deliver_zip, if_neg (Nat.not_lt.mpr h)]
    exact ⟨hz, by simpa [send_document_with_retry] using hspec.1,
      by simpa [send_document_with_retry] using hspec.2.1,
      by simpa [send_document_with_retry] using hspec.2.2.1,
      by simpa [send_document_with_retry] using hspec.2.2.2⟩

/-- Attempt outcomes used in the delivery witness: two transient transport
failures, then a non-retryable error. -/
def witnessOutcomes : Nat → SendOutcome := fun n =>
  if n < 2 then SendOutcome.transientErr else SendOutcome.fatalErr

/-- Witness for `delivery_size_gate_and_retry`: a 60 MB archive is
reported too large with zero send attempts, and a 1000-byte archive whose
third attempt fails non-transiently stops after exactly 3 attempts with
sleeps 2 and 4. -/
theorem delivery_size_gate_and_retry_witness :
    (deliver_zip (60 * 1024 * 1024) witnessOutcomes =
        DeliveryAction.tooLargeReported ∧
      (deliver_zip (60 * 1024 * 1024) witnessOutcomes).sendAttempts = 0)
  ∧ send_document_with_retry witnessOutcomes 4 =
      SendResult.fatalRaise 3 [2, 4] := by
  constructor
  · exact (delivery_size_gate_and_retry (60 * 1024 * 1024) witnessOutcomes).1
      (by norm_num)
  · have h := ((delivery_size_gate_and_retry 1000 witnessOutcomes).2
      (by norm_num)).2.2.2.2 2 (by decide) (by decide)
    simpa using h

/-! ## Asset download phase (`bot.py`, `_download_one` and the task pool
inside `do_actual_export`)

`client.get_file_dlink` and `client.download_file` are called here but are
not among the sources under analysis, so their behaviour for each queued
file is part of the input (`dlink`, `data`).  `MAX_EXPORT_SIZE =
config.MAX_EXPORT_GB * 1024**3` with `MAX_EXPORT_GB` likewise not in the
analysed `config.py`, so the quota is a parameter.  The pool
(`asyncio.Semaphore(5)` over one task per file) is modelled on the
schedule where the tasks run their bodies to completion one after another
in creation order — one admissible interleaving. -/

/-- One entry of `file_list` together with the remote behaviour for it:
`dlink` is `none` when `get_file_dlink` fails or returns a falsy link,
`data` is the complete byte count `download_file` returns (`none` when the
download raises or returns nothing). -/
structure FileTask where
  orig_url : Nat
  dest_path : Nat
  dlink : Option Nat := none
  data : Option Nat := none
  deriving DecidableEq, Repr

/-- The variables `_download_one` closes over, plus two observation logs:
`written` records each completed `open(dest_path, "wb").write(data)` with
its full byte count, and `admissions` records, for every download that was
allowed to start, the value of `total_bytes` at its admission check. -/
structure DownloadState where
  downloaded_files : Nat := 0
  total_bytes : Nat := 0
  files_url_map : List (Nat × Nat) := []
  written : List (Nat × Nat) := []
  admissions : List (Nat × Nat) := []
  deriving DecidableEq, Repr

/-- `_download_one(orig_url, safe_name, dest_path)`: return immediately when
`total_bytes >= MAX_EXPORT_SIZE`; skip on a missing dlink or a failed or
empty download (`if data:`); otherwise write the file, bump
`downloaded_files` and `total_bytes`, and record the rewrite-map entry. -/
def download_one (max_export_size : Nat) (st : DownloadState) (t : FileTask) :
    DownloadState :=
  if max_export_size ≤ st.total_bytes then st
  else
    match t.dlink with
    | none => st
    | some _ =>
      match t.data with
      | none => st
      | some sz =>
        if sz = 0 then st
        else
          { downloaded_files := st.downloaded_files + 1,
            total_bytes := st.total_bytes + sz,
            files_url_map := st.files_url_map ++ [(t.orig_url, t.dest_path)],
            written := st.written ++ [(t.dest_path, sz)],
            admissions := st.admissions ++ [(st.total_bytes, sz)] }

/-- The download phase over the whole `file_list` (serial schedule of the
task pool). -/
def run_downloads (max_export_size : Nat) (tasks : List FileTask) :
    DownloadState :=
  tasks.foldl (download_one max_export_size) {}

/-- Folding from a state at or over the quota changes nothing: every
queued task is skipped. -/
theorem run_downloads_skip_after_quota (max_export_size : Nat)
    (tasks : List FileTask) :
    ∀ st : DownloadState, max_export_size ≤ st.total_bytes →
      tasks.foldl (download_one max_export_size) st = st := by
  induction tasks with
  | nil => intro st _; rfl
  | cons t ts ih =>
    intro st hst
    have h1 : download_one max_export_size st t = st := by
      simp [download_one, if_pos hst]
    simpa [List.foldl_cons, h1] using ih st hst

/-- Invariant carried through the fold for
`run_downloads_quota_behavior`. -/
def DownloadInv (max_export_size : Nat) (st : DownloadState) : Prop :=
  (∀ p ∈ st.admissions, p.1 < max_export_size) ∧
  st.total_bytes = (st.admissions.map (·.2)).sum ∧
  st.downloaded_files = st.admissions.length ∧
  (∀ p ∈ st.files_url_map, p.2 ∈ st.written.map (·.1))

theorem download_one_inv {max_export_size : Nat} {st : DownloadState}
    (t : FileTask) (h : DownloadInv max_export_size st) :
    DownloadInv max_export_size (download_one max_export_size st t) := by
  obtain ⟨h1, h2, h3, h4⟩ := h
  unfold download_one
  by_cases hq : max_export_size ≤ st.total_bytes
  · rw [if_pos hq]; exact ⟨h1, h2, h3, h4⟩
  · rw [if_neg hq]
    rcases t.dlink with _ | d
    · exact ⟨h1, h2, h3, h4⟩
    · rcases t.data with _ | sz
      · exact ⟨h1, h2, h3, h4⟩
      · by_cases hsz : sz = 0
        · simp only [if_pos hsz]
          exact ⟨h1, h2, h3, h4⟩
        · simp only [if_neg hsz]
          refine ⟨?_, ?_, ?_, ?_⟩
          · intro p hp
            rcases List.mem_append.mp hp with hp | hp
            · exact h1 p hp
            · simp only [List.mem_singleton] at hp
              subst hp
              exact Nat.lt_of_not_le hq
          · simp [h2]
          · simp [h3]
          · intro p hp
            rcases List.mem_append.mp hp with hp | hp
            · simp only [List.map_append]
              exact List.mem_append_left _ (h4 p hp)
            · simp only [List.mem_singleton] at hp
              subst hp
              simp

theorem run_downloads_inv (max_export_size : Nat) (tasks : List FileTask) :
    ∀ st : DownloadState, DownloadInv max_export_size st →
      DownloadInv max_export_size
        (tasks.foldl (download_one max_export_size) st) := by
  induction tasks with
  | nil => intro st h; exact h
  | cons t ts ih =>
    intro st h
    exact ih _ (download_one_inv t h)

/-- C3 (amended): every download that starts is admitted only while
`total_bytes` is still strictly below the quota (so once the quota is
reached all remaining queued tasks are skipped — formally, from any state
at the quota the fold is the identity); the cumulative byte count is
exactly the sum of the admitted downloads, which may therefore overshoot
the quota by up to one file per admitted download; and a rewrite-map entry
is recorded only for a file that was completely written. -/
theorem run_downloads_quota_behavior (max_export_size : Nat)
    (tasks : List FileTask) :
    (∀ st : DownloadState, max_export_size ≤ st.total_bytes →
      tasks.foldl (download_one max_export_size) st = st) ∧
    (∀ p ∈ (run_downloads max_export_size tasks).admissions,
      p.1 < max_export_size) ∧
    (run_downloads max_export_size tasks).total_bytes =
      ((run_downloads max_export_size tasks).admissions.map (·.2)).sum ∧
    (∀ p ∈ (run_downloads max_export_size tasks).files_url_map,
      p.2 ∈ (run_downloads max_export_size tasks).written.map (·.1)) := by
  have hinv := run_downloads_inv max_export_size tasks {}
    ⟨by simp, by simp, by simp, by simp⟩
  exact ⟨run_downloads_skip_after_quota max_export_size tasks,
    hinv.1, hinv.2.1, hinv.2.2.2⟩

/-- The five queued 3 MB files of the scenario, all resolvable and
downloadable. -/
def fiveThreeMB : List FileTask :=
  [ { orig_url := 1, dest_path := 1, dlink := some 1, data := some (3 * 1024 * 1024) },
    { orig_url := 2, dest_path := 2, dlink := some 2, data := some (3 * 1024 * 1024) },
    { orig_url := 3, dest_path := 3, dlink := some 3, data := some (3 * 1024 * 1024) },
    { orig_url := 4, dest_path := 4, dlink := some 4, data := some (3 * 1024 * 1024) },
    { orig_url := 5, dest_path := 5, dlink := some 5, data := some (3 * 1024 * 1024) } ]

/-- C3 counterexample: with a 10 MB quota and five 3 MB files queued, the
admission check `total_bytes >= MAX_EXPORT_SIZE` still passes at 9 MB, so
a fourth file downloads: 4 files (not 3) are downloaded and the cumulative
byte count reaches 12 MB, exceeding the quota. -/
theorem run_downloads_quota_counterexample :
    (run_downloads (10 * 1024 * 1024) fiveThreeMB).downloaded_files = 4 ∧
    (run_downloads (10 * 1024 * 1024) fiveThreeMB).total_bytes =
      12 * 1024 * 1024 ∧
    10 * 1024 * 1024 <
      (run_downloads (10 * 1024 * 1024) fiveThreeMB).total_bytes := by
  refine ⟨by decide, by decide, by decide⟩

/-- Witness for `run_downloads_quota_behavior`: instantiating the
skip-after-quota clause and the admission clause at concrete inputs. -/
theorem run_downloads_quota_behavior_witness :
    fiveThreeMB.foldl (download_one (10 * 1024 * 1024))
      { total_bytes := 10 * 1024 * 1024 } =
      { total_bytes := 10 * 1024 * 1024 } ∧
    ((0, 3 * 1024 * 1024) ∈
        (run_downloads (10 * 1024 * 1024) fiveThreeMB).admissions →
      (0 : Nat) < 10 * 1024 * 1024) := by
  constructor
  · exact (run_downloads_quota_behavior (10 * 1024 * 1024) fiveThreeMB).1
      { total_bytes := 10 * 1024 * 1024 } (by norm_num)
  · intro hmem
    exact (run_downloads_quota_behavior (10 * 1024 * 1024) fiveThreeMB).2.1
      (0, 3 * 1024 * 1024) hmem

/-! ## One active export job per requester (`bot.py`, `do_export` and
`do_actual_export`) -/

abbrev UserId := Nat

/-- `user_exporting`: `dict.get` on a missing key is falsy, so the map is
total with default `false`. -/
abbrev LockMap := UserId → Bool

/-- Outcome of the `do_export` callback before any export work starts. -/
inductive ExportRequestOutcome where
  | rejectedNoSession
  | rejectedNoSelection
  | rejectedBusy
  | proceed
  deriving DecidableEq, Repr

/-- The guard sequence of `do_export` (bot.py:979-999): missing session,
empty selection, then `if user_exporting.get(user_id)` — an immediate
alert-and-return, nothing is queued and no state is touched. -/
def do_export_guard (has_session has_selected : Bool) (locks : LockMap)
    (u : UserId) : ExportRequestOutcome :=
  if !has_session then .rejectedNoSession
  else if !has_selected then .rejectedNoSelection
  else if locks u then .rejectedBusy
  else .proceed

/-- How the awaits of one `do_actual_export` run behave.  The first flag is
the initial `callback.message.edit_text` (bot.py:1215), which sits after
the lock is taken and outside every `try`; `chat_exports_fail` stands for
exceptions inside the per-chat loop, all caught into the error buckets by
the inner and outer `try` (bot.py:1266-1313); `file_phase_fails` for
exceptions inside the archive-building `try` (bot.py:1552-1666), also
caught; and `final_answer_raises` for the closing
`callback.message.answer` (bot.py:1725), again outside every `try` and
before the lock release at bot.py:1736. -/
structure ExportRunEnv where
  status_edit_raises : Bool := false
  chat_exports_fail : Bool := false
  file_phase_fails : Bool := false
  final_answer_raises : Bool := false
  deriving DecidableEq, Repr

/-- Whether a `do_actual_export` invocation returned or propagated an
exception. -/
inductive RunOutcome where
  | completed
  | raised
  deriving DecidableEq, Repr

/-- The lock lifecycle of `do_actual_export`: set
`user_exporting[user_id] = True` (bot.py:1212), run the body — during
which per-chat and archive-phase failures are caught and only fill the
error buckets — and `user_exporting.pop(user_id, None)` (bot.py:1736)
only if no unguarded await raised first. -/
def do_actual_export_locks (env : ExportRunEnv) (locks : LockMap)
    (u : UserId) : LockMap × RunOutcome :=
  let locks1 : LockMap := fun v => if v = u then true else locks v
  if env.status_edit_raises then (locks1, .raised)
  else if env.final_answer_raises then (locks1, .raised)
  else (fun v => if v = u then false else locks1 v, .completed)

/-- C4 (amended): a second request while the lock is set is rejected
immediately and nothing is queued; when the run reaches its end the lock
is released, even when every chat export and the archive phase failed
(those exceptions are caught); but the release is not protected by
`finally`, so an exception from an await outside every `try` — the initial
status edit or the final completion message — exits the job with the lock
still set. -/
theorem export_lock_behavior :
    (∀ (locks : LockMap) (u : UserId), locks u = true →
      do_export_guard true true locks u = ExportRequestOutcome.rejectedBusy)
  ∧ (∀ (env : ExportRunEnv) (locks : LockMap) (u : UserId),
      env.status_edit_raises = false → env.final_answer_raises = false →
      (do_actual_export_locks env locks u).1 u = false ∧
      (do_actual_export_locks env locks u).2 = RunOutcome.completed)
  ∧ (∀ (env : ExportRunEnv) (locks : LockMap) (u : UserId),
      env.status_edit_raises = true ∨ env.final_answer_raises = true →
      (do_actual_export_locks env locks u).1 u = true ∧
      (do_actual_export_locks env locks u).2 = RunOutcome.raised) := by
  refine ⟨?_, ?_, ?_⟩
  · intro locks u h
    simp [do_export_guard, h]
  · intro env locks u h1 h2
    simp [do_actual_export_locks, h1, h2]
  · intro env locks u h
    rcases h with h | h
    · simp [do_actual_export_locks, h]
    · by_cases hs : env.status_edit_raises
      · simp [do_actual_export_locks, hs]
      · simp [do_actual_export_locks, hs, h]

/-- C4 counterexample: a run in which everything succeeds except the final
completion message (`callback.message.answer`, bot.py:1725, outside every
`try`) exits by exception with the requester's lock still set — the lock
is not released on this exit path, so every later request by requester 7
would be rejected as busy. -/
theorem export_lock_counterexample :
    (do_actual_export_locks { final_answer_raises := true }
        (fun _ => false) 7).2 = RunOutcome.raised ∧
    (do_actual_export_locks { final_answer_raises := true }
        (fun _ => false) 7).1 7 = true ∧
    do_export_guard true true
      (do_actual_export_locks { final_answer_raises := true }
        (fun _ => false) 7).1 7 = ExportRequestOutcome.rejectedBusy := by
  refine ⟨rfl, rfl, rfl⟩

/-- Witness for `export_lock_behavior`: the busy rejection and the
normal-path release at concrete inputs. -/
theorem export_lock_behavior_witness :
    do_export_guard true true (fun v => v = 3) 3 =
      ExportRequestOutcome.rejectedBusy ∧
    (do_actual_export_locks { chat_exports_fail := true }
        (fun _ => false) 3).1 3 = false := by
  constructor
  · exact export_lock_behavior.1 (fun v => v = 3) 3 (by simp)
  · exact (export_lock_behavior.2.1 { chat_exports_fail := true }
      (fun _ => false) 3 rfl rfl).1

/-! ## Authentication handshake (`vkteams_client.py`, `VKTeamsAuth`) -/

/-- The `clientLogin` (`tokenType=longTerm`) response as `verify_code`
reads it: `response.statusCode`, `response.statusText`, and — on success —
`response.data.token.a`. -/
structure ClientLoginResponse where
  statusCode : Int
  statusText : Str := []
  token_a : Str := []
  deriving DecidableEq, Repr

/-- The `startSession` response as `_start_session` reads it. -/
structure StartSessionResponse where
  statusCode : Int
  statusText : Str := []
  aimsid : Str := []
  fetchBaseURL : Str := []
  deriving DecidableEq, Repr

/-- The two remote auth endpoints `verify_code` talks to, as oracles:
`clientLogin` from `(email, code)` (the `s` query parameter and the
`pwd` form field) and `startSession` from `(email, token_a)`. -/
structure AuthEnv where
  clientLogin : Str → Str → ClientLoginResponse
  startSession : Str → Str → StartSessionResponse

/-- The typed errors `verify_code` can raise: the code exchange was
rejected (`"Неверный код или ошибка"`), or session creation was rejected
(`"Ошибка создания сессии"`). -/
inductive AuthError where
  | codeRejected (statusText : Str)
  | sessionRejected (statusText : Str)
  deriving DecidableEq, Repr

/-- How many requests a `verify_code` invocation sent to each endpoint. -/
structure AuthCallLog where
  clientLoginCalls : Nat
  startSessionCalls : Nat
  deriving DecidableEq, Repr

/-- `VKTeamsAuth.verify_code`: one `clientLogin` POST; on
`statusCode != 200` raise at once (no retry, no session); otherwise read
`token.a` and run `_start_session`, whose failure likewise raises; only a
fully successful chain constructs a `VKTeamsSession`. -/
def verify_code (env : AuthEnv) (email code : Str) :
    Except AuthError VKTeamsSession × AuthCallLog :=
  let r := env.clientLogin email code
  if r.statusCode ≠ 200 then
    (.error (.codeRejected r.statusText), ⟨1, 0⟩)
  else
    let s := env.startSession email r.token_a
    if s.statusCode ≠ 200 then
      (.error (.sessionRejected s.statusText), ⟨1, 1⟩)
    else
      (.ok { aimsid := s.aimsid, email := email,
             fetch_base_url := s.fetchBaseURL }, ⟨1, 1⟩)

/-- C7: when the code exchange answers with a non-200 status,
`verify_code` yields exactly one typed error carrying that rejection, no
session value of any kind, a single `clientLogin` request (no automatic
retry of the code exchange) and zero `startSession` requests. -/
theorem verify_code_rejection (env : AuthEnv) (email code : Str)
    (h : (env.clientLogin email code).statusCode ≠ 200) :
    verify_code env email code =
      (Except.error (AuthError.codeRejected
        (env.clientLogin email code).statusText), ⟨1, 0⟩) ∧
    ∀ s : VKTeamsSession, (verify_code env email code).1 ≠ Except.ok s := by
  have h1 : verify_code env email code =
      (Except.error (AuthError.codeRejected
        (env.clientLogin email code).statusText), ⟨1, 0⟩) := by
    simp [verify_code, if_pos h]
  exact ⟨h1, fun s => by simp [h1]⟩

/-- An auth backend that rejects every code exchange with status 401. -/
def rejectingAuthEnv : AuthEnv :=
  { clientLogin := fun _ _ => { statusCode := 401, statusText := "bad".toList },
    startSession := fun _ _ => { statusCode := 200 } }

/-- Witness for `verify_code_rejection`: a wrong code against
`rejectingAuthEnv` yields the typed rejection, one code-exchange call and
no session-start call. -/
theorem verify_code_rejection_witness :
    verify_code rejectingAuthEnv ("a@co.com".toList) ("0000".toList) =
      (Except.error (AuthError.codeRejected ("bad".toList)), ⟨1, 0⟩) :=
  (verify_code_rejection rejectingAuthEnv ("a@co.com".toList)
    ("0000".toList) (by decide)).1

/-! ## Assets-only archive lock with TTL (`bot.py`, `process_export`
`format:files_only` branch and `handle_delete_files`) -/

/-- One `user_active_exports` entry:
`{"uuid": …, "path": …, "created_at": …}`. -/
structure ActiveExport where
  uuid : Nat
  path : Nat
  created_at : Int
  deriving DecidableEq, Repr

/-- The state these handlers read and write: the `user_active_exports`
dict, the set of export directories present on disk (`os.path.isdir`), and
the global `_files_enabled` flag. -/
structure FilesBotState where
  user_active_exports : UserId → Option ActiveExport
  dirs : List Nat
  files_enabled : Bool := true

/-- `user_active_exports.pop(user_id, None)`. -/
def popActive (m : UserId → Option ActiveExport) (u : UserId) :
    UserId → Option ActiveExport :=
  fun v => if v = u then none else m v

/-- Outcome of the `format:files_only` branch of `process_export`
(bot.py:1062-1099). -/
inductive FilesOnlyOutcome where
  | disabledNotice
  | stillActiveRefusal
  | exportStarted
  deriving DecidableEq, Repr

/-- The `format:files_only` branch of `process_export`: refuse when files
are globally disabled; refuse with the "Активная выгрузка файлов" message,
touching nothing, while the previous export's entry exists, its directory
is still on disk and `600 - (now - created_at) > 0`; otherwise pop any
stale entry and start the export. -/
def process_export_files_only (st : FilesBotState) (u : UserId) (now : Int) :
    FilesOnlyOutcome × FilesBotState :=
  if !st.files_enabled then (.disabledNotice, st)
  else
    let granted : FilesOnlyOutcome × FilesBotState :=
      (.exportStarted,
        { st with user_active_exports := popActive st.user_active_exports u })
    match st.user_active_exports u with
    | some a =>
      if a.path ∈ st.dirs then
        if 0 < 600 - (now - a.created_at) then (.stillActiveRefusal, st)
        else granted
      else granted
    | none => granted

/-- Outcome of the `delete_files:` callback. -/
inductive DeleteFilesOutcome where
  | deleted
  | alreadyDeleted
  deriving DecidableEq, Repr

/-- `handle_delete_files` (bot.py:1183-1195): when the stored entry's uuid
matches the request, remove the directory tree and pop the entry;
otherwise answer "already deleted" and change nothing. -/
def handle_delete_files (st : FilesBotState) (u : UserId) (req_uuid : Nat) :
    DeleteFilesOutcome × FilesBotState :=
  match st.user_active_exports u with
  | some a =>
    if a.uuid = req_uuid then
      (.deleted,
        { st with dirs := st.dirs.filter (· ≠ a.path),
                  user_active_exports := popActive st.user_active_exports u })
    else (.alreadyDeleted, st)
  | none => (.alreadyDeleted, st)

/-- C8: while a requester's assets-only archive is alive (entry present,
directory on disk, fewer than 600 seconds old), a new `files_only` request
from that requester is refused with the explicit still-active outcome and
the state is left untouched (nothing started, nothing queued); once the
TTL has elapsed, or the directory is gone, or the entry was removed by an
explicit `handle_delete_files` with the matching uuid, the next request
starts an export. -/
theorem files_only_ttl_lock (st : FilesBotState) (u : UserId) (now : Int)
    (a : ActiveExport) (henabled : st.files_enabled = true)
    (hentry : st.user_active_exports u = some a) :
    (a.path ∈ st.dirs → now - a.created_at < 600 →
      process_export_files_only st u now =
        (FilesOnlyOutcome.stillActiveRefusal, st))
  ∧ (600 ≤ now - a.created_at →
      (process_export_files_only st u now).1 = FilesOnlyOutcome.exportStarted)
  ∧ (a.path ∉ st.dirs →
      (process_export_files_only st u now).1 = FilesOnlyOutcome.exportStarted)
  ∧ (handle_delete_files st u a.uuid =
      (DeleteFilesOutcome.deleted,
        { st with dirs := st.dirs.filter (· ≠ a.path),
                  user_active_exports := popActive st.user_active_exports u }) ∧
     ((handle_delete_files st u a.uuid).2.files_enabled = true →
      (process_export_files_only (handle_delete_files st u a.uuid).2 u now).1 =
        FilesOnlyOutcome.exportStarted)) := by
  refine ⟨?_, ?_, ?_, ?_, ?_⟩
  · intro hdir httl
    simp [process_export_files_only, henabled, hentry, hdir, httl]
  · intro httl
    have hne : ¬ (now - a.created_at < 600) := by omega
    simp [process_export_files_only, henabled, hentry, hne]
  · intro hdir
    simp [process_export_files_only, henabled, hentry, hdir]
  · simp [handle_delete_files, hentry]
  · intro hen
    have hdel : (handle_delete_files st u a.uuid).2.user_active_exports u =
        none := by
      simp [handle_delete_files, hentry, popActive]
    simp [process_export_files_only, hen, hdel]

/-- Witness for `files_only_ttl_lock`: an alive archive (created at 0,
requested again at 100 s) refuses the new request, and deleting it lets
the next request through. -/
theorem files_only_ttl_lock_witness :
    (process_export_files_only
        { user_active_exports := fun v => if v = 1 then
            some { uuid := 9, path := 5, created_at := 0 } else none,
          dirs := [5] } 1 100).1 = FilesOnlyOutcome.stillActiveRefusal ∧
    (process_export_files_only
        (handle_delete_files
          { user_active_exports := fun v => if v = 1 then
              some { uuid := 9, path := 5, created_at := 0 } else none,
            dirs := [5] } 1 9).2 1 100).1 = FilesOnlyOutcome.exportStarted := by
  constructor
  · have h := (files_only_ttl_lock
      { user_active_exports := fun v => if v = 1 then
          some { uuid := 9, path := 5, created_at := 0 } else none,
        dirs := [5] } 1 100 { uuid := 9, path := 5, created_at := 0 }
      rfl (by simp)).1 (by simp) (by norm_num)
    simp [h]
  · exact (files_only_ttl_lock
      { user_active_exports := fun v => if v = 1 then
          some { uuid := 9, path := 5, created_at := 0 } else none,
        dirs := [5] } 1 100 { uuid := 9, path := 5, created_at := 0 }
      rfl (by simp)).2.2.2.2 rfl

/-! ## Contact directory merge (`vkteams_client.py`,
`VKTeamsClient.get_contact_list` with `_get_contact_list_rapi` and
`_get_dialogs_rapi`) -/

/-- `hay.startsWith? needle` on character lists. -/
def strStartsWith : Str → Str → Bool
  | _, [] => true
  | [], _ :: _ => false
  | a :: as, b :: bs => (a = b) && strStartsWith as bs

/-- Python `needle in hay` substring membership. -/
def strContainsSub (needle : Str) : Str → Bool
  | [] => needle.isEmpty
  | x :: xs => strStartsWith (x :: xs) needle || strContainsSub needle xs

/-- `"@chat.agent"`. -/
def CHAT_AGENT : Str := "@chat.agent".toList

/-- A contact dict as the three discovery sources build it.  `sn` is
present in every built dict; every other field is `none` exactly when the
dict lacks that key (`ctype` stands for the `"type"` key). -/
structure Contact where
  sn : Str
  name : Option Str := none
  friendly : Option Str := none
  nick : Option Str := none
  ctype : Option Str := none
  userType : Option Str := none
  has_messages : Option Bool := none
  unread_count : Option Int := none
  last_msg_id : Option Str := none
  is_blocked : Option Bool := none
  deriving DecidableEq, Repr

instance : Inhabited Contact := ⟨{ sn := [] }⟩

/-- Python `a.update(b)` on contact dicts: every key present in `b`
overwrites `a`'s value (whatever it was); keys absent from `b` keep `a`'s
value. -/
def dictUpdate (a b : Contact) : Contact :=
  { sn := b.sn,
    name := b.name.orElse (fun _ => a.name),
    friendly := b.friendly.orElse (fun _ => a.friendly),
    nick := b.nick.orElse (fun _ => a.nick),
    ctype := b.ctype.orElse (fun _ => a.ctype),
    userType := b.userType.orElse (fun _ => a.userType),
    has_messages := b.has_messages.orElse (fun _ => a.has_messages),
    unread_count := b.unread_count.orElse (fun _ => a.unread_count),
    last_msg_id := b.last_msg_id.orElse (fun _ => a.last_msg_id),
    is_blocked := b.is_blocked.orElse (fun _ => a.is_blocked) }

/-- One raw entry of the `getContactList` response. -/
structure RawRapiContact where
  sn : Option Str := none
  aimId : Option Str := none
  friendly : Option Str := none
  nick : Option Str := none
  userType : Option Str := none
  deriving DecidableEq, Repr

/-- The per-entry body of `_get_contact_list_rapi`:
`sn = contact.get("sn") or contact.get("aimId", "")`, skip when falsy,
`name = contact.get("friendly", contact.get("nick", sn))`, etc. -/
def parse_rapi_contact (c : RawRapiContact) : Option Contact :=
  let sn := pyOrStr c.sn (c.aimId.getD [])
  if sn.isEmpty then none
  else some
    { sn := sn,
      name := some (c.friendly.getD (c.nick.getD sn)),
      friendly := some (c.friendly.getD []),
      nick := some (c.nick.getD []),
      ctype := some (if strContainsSub CHAT_AGENT sn then "chat".toList
        else "contact".toList),
      userType := some (c.userType.getD []) }

/-- `_get_contact_list_rapi` over an already-fetched response. -/
def get_contact_list_rapi (raw : List RawRapiContact) : List Contact :=
  raw.filterMap parse_rapi_contact

/-- One raw entry of the `getDialogs` response. -/
structure RawDialog where
  sn : Option Str := none
  friendly : Option Str := none
  name : Option Str := none
  unreadCount : Option Int := none
  lastMsgId : Option Str := none
  deriving DecidableEq, Repr

/-- The per-entry body of `_get_dialogs_rapi`: `sn = dialog.get("sn", "")`,
skip when falsy, `name = dialog.get("friendly", dialog.get("name", sn))`,
`has_messages = True`, etc. -/
def parse_dialog (d : RawDialog) : Option Contact :=
  let sn := d.sn.getD []
  if sn.isEmpty then none
  else some
    { sn := sn,
      name := some (d.friendly.getD (d.name.getD sn)),
      friendly := some (d.friendly.getD []),
      ctype := some (if strContainsSub CHAT_AGENT sn then "chat".toList
        else "contact".toList),
      has_messages := some true,
      unread_count := some (d.unreadCount.getD 0),
      last_msg_id := some (d.lastMsgId.getD []) }

/-- `_get_dialogs_rapi` over an already-fetched response. -/
def get_dialogs_rapi (raw : List RawDialog) : List Contact :=
  raw.filterMap parse_dialog

/-- `all_contacts[sn] = v` on an insertion-ordered dict: replace in place
or append. -/
def setEntry : List (Str × Contact) → Str → Contact → List (Str × Contact)
  | [], k, v => [(k, v)]
  | (k', v') :: rest, k, v =>
    if k' = k then (k', v) :: rest else (k', v') :: setEntry rest k v

/-- `sn in all_contacts` / `all_contacts[sn]` lookup. -/
def findEntry : List (Str × Contact) → Str → Option Contact
  | [], _ => none
  | (k', v') :: rest, k => if k' = k then some v' else findEntry rest k

/-- `if sn in all_contacts: all_contacts[sn].update(contact) else:
all_contacts[sn] = contact`. -/
def mergeContact (m : List (Str × Contact)) (c : Contact) :
    List (Str × Contact) :=
  match findEntry m c.sn with
  | some old => setEntry m c.sn (dictUpdate old c)
  | none => setEntry m c.sn c

/-- `get_contact_list` over the three already-fetched discovery sources:
every `getContactList` entry is assigned whole, then `getDialogs` and the
`fetchEvents` contacts are merged with `dict.update`, and the dict's
values are returned in insertion order. -/
def get_contact_list (rapi dialogs fetch : List Contact) : List Contact :=
  let m1 := rapi.foldl
    (fun m c => if c.sn.isEmpty then m else setEntry m c.sn c) []
  let m2 := dialogs.foldl
    (fun m c => if c.sn.isEmpty then m else mergeContact m c) m1
  let m3 := fetch.foldl
    (fun m c => if c.sn.isEmpty then m else mergeContact m c) m2
  m3.map (·.2)

/-- Well-formedness of the `all_contacts` dict: keys are pairwise distinct
and each stored contact's `sn` is its key. -/
def MapWF (m : List (Str × Contact)) : Prop :=
  (m.map (·.1)).Nodup ∧ ∀ p ∈ m, p.2.sn = p.1

theorem setEntry_keys (m : List (Str × Contact)) (k : Str) (v : Contact) :
    (setEntry m k v).map (·.1) =
      if k ∈ m.map (·.1) then m.map (·.1) else m.map (·.1) ++ [k] := by
  induction m with
  | nil => simp [setEntry]
  | cons p rest ih =>
    obtain ⟨k', v'⟩ := p
    by_cases hk : k' = k
    · subst hk
      simp [setEntry]
    · simp only [setEntry, if_neg hk, List.map_cons, ih]
      by_cases hmem : k ∈ rest.map (·.1)
      · simp [hmem, Ne.symm hk]
      · simp [hmem, Ne.symm hk]

theorem mem_setEntry {m : List (Str × Contact)} {k : Str} {v : Contact}
    {p : Str × Contact} (h : p ∈ setEntry m k v) : p = (k, v) ∨ p ∈ m := by
  induction m with
  | nil =>
    simp only [setEntry, List.mem_singleton] at h
    exact Or.inl h
  | cons q rest ih =>
    obtain ⟨k', v'⟩ := q
    by_cases hk : k' = k
    · rw [show setEntry ((k', v') :: rest) k v = (k', v) :: rest from by
        simp [setEntry, hk]] at h
      rcases List.mem_cons.mp h with h1 | h1
      · exact Or.inl (by simp [h1, hk])
      · exact Or.inr (List.mem_cons_of_mem _ h1)
    · rw [show setEntry ((k', v') :: rest) k v = (k', v') :: setEntry rest k v from by
        simp [setEntry, hk]] at h
      rcases List.mem_cons.mp h with h1 | h1
      · exact Or.inr (by simp [h1])
      · rcases ih h1 with h2 | h2
        · exact Or.inl h2
        · exact Or.inr (List.mem_cons_of_mem _ h2)

theorem setEntry_wf {m : List (Str × Contact)} {k : Str} {v : Contact}
    (hwf : MapWF m) (hv : v.sn = k) : MapWF (setEntry m k v) := by
  obtain ⟨hnd, hsn⟩ := hwf
  constructor
  · rw [setEntry_keys]
    by_cases hmem : k ∈ m.map (·.1)
    · simpa [hmem] using hnd
    · rw [if_neg hmem]
      exact List.nodup_append.mpr ⟨hnd, List.nodup_singleton k,
        by simpa [List.disjoint_singleton] using hmem⟩
  · intro p hp
    rcases mem_setEntry hp with h1 | h1
    · subst h1; exact hv
    · exact hsn p h1

theorem mergeContact_wf {m : List (Str × Contact)} {c : Contact}
    (hwf : MapWF m) : MapWF (mergeContact m c) := by
  unfold mergeContact
  rcases findEntry m c.sn with _ | old
  · exact setEntry_wf hwf rfl
  · exact setEntry_wf hwf rfl

theorem findEntry_setEntry (m : List (Str × Contact)) (k : Str) (v : Contact) :
    findEntry (setEntry m k v) k = some v := by
  induction m with
  | nil => simp [setEntry, findEntry]
  | cons p rest ih =>
    obtain ⟨k', v'⟩ := p
    by_cases hk : k' = k
    · subst hk
      simp [setEntry, findEntry]
    · simp [setEntry, findEntry, hk, ih]

theorem foldl_assign_wf (cs : List Contact) :
    ∀ m, MapWF m →
      MapWF (cs.foldl (fun m c => if c.sn.isEmpty then m else setEntry m c.sn c) m) := by
  induction cs with
  | nil => intro m h; exact h
  | cons c rest ih =>
    intro m h
    rw [List.foldl_cons]
    by_cases hc : c.sn.isEmpty
    · rw [if_pos hc]; exact ih m h
    · rw [if_neg hc]; exact ih _ (setEntry_wf h rfl)

theorem foldl_merge_wf (cs : List Contact) :
    ∀ m, MapWF m →
      MapWF (cs.foldl (fun m c => if c.sn.isEmpty then m else mergeContact m c) m) := by
  induction cs with
  | nil => intro m h; exact h
  | cons c rest ih =>
    intro m h
    rw [List.foldl_cons]
    by_cases hc : c.sn.isEmpty
    · rw [if_pos hc]; exact ih m h
    · rw [if_neg hc]; exact ih _ (mergeContact_wf h)

/-- C6 (amended): the merged directory is unique per chat identifier; but
merging is `dict.update`, so for an identifier already known every field
*present* in the later source's record replaces the stored value — even a
non-empty one, and even by an empty or identifier-valued field — while
only the fields absent from the later record keep the earlier value; a
previously unknown identifier is appended whole. -/
theorem contact_merge_behavior :
    (∀ rapi dialogs fetch : List Contact,
      ((get_contact_list rapi dialogs fetch).map (·.sn)).Nodup)
  ∧ (∀ (m : List (Str × Contact)) (c old : Contact),
      findEntry m c.sn = some old →
      findEntry (mergeContact m c) c.sn = some (dictUpdate old c))
  ∧ (∀ (m : List (Str × Contact)) (c : Contact),
      findEntry m c.sn = none →
      findEntry (mergeContact m c) c.sn = some c) := by
  refine ⟨?_, ?_, ?_⟩
  · intro rapi dialogs fetch
    have hwf : MapWF ((fetch.foldl
        (fun m c => if c.sn.isEmpty then m else mergeContact m c)
        (dialogs.foldl (fun m c => if c.sn.isEmpty then m else mergeContact m c)
          (rapi.foldl (fun m c => if c.sn.isEmpty then m else setEntry m c.sn c)
            [])))) :=
      foldl_merge_wf fetch _ (foldl_merge_wf dialogs _
        (foldl_assign_wf rapi [] ⟨List.nodup_nil, by simp⟩))
    obtain ⟨hnd, hsn⟩ := hwf
    have hmap : ((get_contact_list rapi dialogs fetch).map (·.sn)) =
        ((fetch.foldl (fun m c => if c.sn.isEmpty then m else mergeContact m c)
          (dialogs.foldl (fun m c => if c.sn.isEmpty then m else mergeContact m c)
            (rapi.foldl (fun m c => if c.sn.isEmpty then m else setEntry m c.sn c)
              []))).map (·.1)) := by
      simp only [get_contact_list, List.map_map]
      exact List.map_congr_left (fun p hp => hsn p hp)
    rw [hmap]
    exact hnd
  · intro m c old h
    simp [mergeContact, h, findEntry_setEntry]
  · intro m c h
    simp [mergeContact, h, findEntry_setEntry]

/-- The bulk-listing raw entry of the counterexample: identifier
`u1@co` with the non-empty display name `Alice`. -/
def aliceRapiRaw : RawRapiContact :=
  { sn := some ("u1@co".toList), friendly := some ("Alice".toList) }

/-- The later `getDialogs` raw entry for the same identifier, carrying no
`friendly` and no `name`. -/
def sparseDialogRaw : RawDialog := { sn := some ("u1@co".toList) }

/-- C6 counterexample: the richer bulk listing resolves the non-empty name
`Alice`, but merging the later, sparser dialog entry for the same
identifier overwrites `name` with the raw identifier and `friendly` with
the empty string — a later source does overwrite non-empty fields of an
earlier richer source. -/
theorem contact_merge_counterexample :
    (get_contact_list_rapi [aliceRapiRaw]).map (·.name) =
      [some ("Alice".toList)] ∧
    (get_contact_list (get_contact_list_rapi [aliceRapiRaw])
        (get_dialogs_rapi [sparseDialogRaw]) []).map (·.name) =
      [some ("u1@co".toList)] ∧
    (get_contact_list (get_contact_list_rapi [aliceRapiRaw])
        (get_dialogs_rapi [sparseDialogRaw]) []).map (·.friendly) =
      [some []] ∧
    (get_contact_list (get_contact_list_rapi [aliceRapiRaw])
        (get_dialogs_rapi [sparseDialogRaw]) []).map (·.sn) =
      [("u1@co".toList)] := by
  refine ⟨by decide, by decide, by decide, by decide⟩

/-- Witness for `contact_merge_behavior`: the update-in-place clause at a
concrete one-entry dict. -/
theorem contact_merge_behavior_witness :
    findEntry (mergeContact [(("u1".toList),
        { sn := "u1".toList, name := some ("Alice".toList) })]
      { sn := "u1".toList, friendly := some ("x".toList) }) ("u1".toList) =
      some (dictUpdate { sn := "u1".toList, name := some ("Alice".toList) }
        { sn := "u1".toList, friendly := some ("x".toList) }) :=
  contact_merge_behavior.2.1
    [(("u1".toList), { sn := "u1".toList, name := some ("Alice".toList) })]
    { sn := "u1".toList, friendly := some ("x".toList) }
    { sn := "u1".toList, name := some ("Alice".toList) } (by decide)

end VKDump
